import Mathlib

/-!
Verification of `src/Geometry.js` (OpenLayers.Handler.Geometry), a drag
handler that rotates and uniformly scales a geometry collection about the
first mouse-down point.

The handler's own code (`down`, `move`, `calculateAngle`, `measureWidth`,
`up`, `out`, `cancel`, `finalize`, `clear`, `callback`) is embedded
faithfully below.  The geometry capabilities it calls (`clone`, `move`,
`rotate`, `resize`, `calculateBounds`, `distanceTo`) live in the OpenLayers
host library, outside this repository; those are modelled from the spec's
capability contracts.  Coordinates are real numbers (the JS code computes
with IEEE doubles; ℝ is the idealised model, so NaN/Infinity have no
representation and the places where JS would produce them or throw are
modelled as explicit errors, noted where they occur).

JS mutation is modelled by explicit state passing: a method that would
throw a `TypeError` mid-body returns `.error` and the partially mutated
state is discarded (no claim below inspects post-exception state).
-/

namespace OLGeom

/-- A point in map coordinates (`OpenLayers.Geometry.Point`). -/
structure Point where
  x : ℝ
  y : ℝ

/-- Axis-aligned bounds (`OpenLayers.Bounds`: left/right/bottom/top). -/
structure Bounds where
  left : ℝ
  right : ℝ
  bottom : ℝ
  top : ℝ

/-- A geometry collection, modelled as the list of its coordinates.
Modelled from the spec: "an ordered collection of geometric sub-shapes
(opaque to the core beyond four required capabilities: clone, axis-aligned
bounds, rotate-by-angle-about-pivot, scale-by-factor-about-pivot)". -/
abbrev Shape := List Point

namespace Shape

/-- Modelled from the spec: `clone() → Shape`.  Under Lean's value
semantics cloning a value is the identity; the live-alias/clone
distinction of the JS heap is captured by which state field a value is
read from. -/
def clone (s : Shape) : Shape := s

/-- Modelled from the spec: `move(dx, dy)` translates every coordinate. -/
def moveBy (s : Shape) (dx dy : ℝ) : Shape :=
  s.map fun p => ⟨p.x + dx, p.y + dy⟩

end Shape

/-- Extend bounds by one point (the inner step of OpenLayers
`calculateBounds`). -/
def Bounds.extend (b : Bounds) (q : Point) : Bounds :=
  ⟨min b.left q.x, max b.right q.x, min b.bottom q.y, max b.top q.y⟩

/-- Modelled from the spec: `bounds(shape)` returns axis-aligned min/max x
and y, recomputed from the coordinates each time it is called (the model
has no bounds cache, matching the source's `calculateBounds()` call before
every read).  An empty collection has no bounds (`null` in OpenLayers). -/
def Shape.bounds : Shape → Option Bounds
  | [] => none
  | p :: ps => some (ps.foldl Bounds.extend ⟨p.x, p.x, p.y, p.y⟩)

noncomputable section

/-- Cosine of an angle given in degrees. -/
def cosd (a : ℝ) : ℝ := Real.cos (a * Real.pi / 180)

/-- Sine of an angle given in degrees. -/
def sind (a : ℝ) : ℝ := Real.sin (a * Real.pi / 180)

/-- Modelled from the spec: `rotate(shape, deltaDegrees, pivot)` "rotates
every coordinate of every sub-shape by deltaDegrees clockwise about
pivot". -/
def rotPoint (a : ℝ) (pivot p : Point) : Point :=
  ⟨pivot.x + (p.x - pivot.x) * cosd a + (p.y - pivot.y) * sind a,
   pivot.y - (p.x - pivot.x) * sind a + (p.y - pivot.y) * cosd a⟩

/-- Rotate a whole collection about a pivot, in degrees. -/
def Shape.rotateBy (s : Shape) (a : ℝ) (pivot : Point) : Shape :=
  s.map (rotPoint a pivot)

/-- Modelled from the spec: `scale(shape, factor, pivot)` "scales every
coordinate's distance from pivot by factor, uniformly in both axes". -/
def Shape.resizeBy (s : Shape) (f : ℝ) (pivot : Point) : Shape :=
  s.map fun p => ⟨pivot.x + f * (p.x - pivot.x), pivot.y + f * (p.y - pivot.y)⟩

/-- Euclidean distance, `OpenLayers.Geometry.Point.distanceTo`. -/
def Point.distanceTo (p q : Point) : ℝ :=
  Real.sqrt ((p.x - q.x) ^ 2 + (p.y - q.y) ^ 2)

/-- JavaScript `Math.atan2 y x` over ℝ (the usual four-quadrant
arctangent; `atan2 0 0 = 0`). -/
def atan2 (y x : ℝ) : ℝ :=
  if 0 < x then Real.arctan (y / x)
  else if x < 0 then
    (if 0 ≤ y then Real.arctan (y / x) + Real.pi
     else Real.arctan (y / x) - Real.pi)
  else
    (if 0 < y then Real.pi / 2
     else if y < 0 then -(Real.pi / 2)
     else 0)

/-- Source method `calculateAngle`: `Math.atan2(point.y - origin.y,
point.x - origin.x) * (180 / Math.PI)`. -/
def calculateAngle (point origin : Point) : ℝ :=
  atan2 (point.y - origin.y) (point.x - origin.x) * (180 / Real.pi)

/-- The named callbacks this handler fires or special-cases. -/
inductive CbName
  | create
  | cancel
  | done
deriving DecidableEq

/-- An argument delivered to (or passed into) a callback: a point, the
feature wrapper handle, or a geometry value. -/
inductive CbArg
  | point (p : Point)
  | featureRef
  | geom (s : Shape)

/-- An observable effect of the handler. -/
inductive Ev
  | fired (name : CbName) (args : List CbArg)
  | render (s : Shape)

/-- A JS runtime failure surfaced by the embedding.  `typeError` models a
property access on `null`/`undefined`; `nanArith` marks arithmetic on an
uninitialised (`undefined`) number, which JS would silently turn into NaN
but ℝ cannot represent (that branch is unreachable through the handler's
own entry points). -/
inductive JsErr
  | typeError
  | nanArith

/-- The handler's mutable state: the fields of
`OpenLayers.Handler.Geometry` that the core logic reads or writes.
`geometry` is the template set via `setGeometry`; `dragGeometry` the
per-session working clone; `radius` is the source's `this.radius`
(uninitialised before the first `down`); `featureOnLayer` stands for the
sketch feature being present on the sketch layer; `registered` is the set
of keys present on `this.callbacks`; `events` logs fired callbacks and
render requests. -/
structure HState where
  geometry : Option Shape
  dragGeometry : Option Shape
  origin : Option Point
  angle : ℝ
  radius : Option ℝ
  featureOnLayer : Bool
  registered : List CbName
  events : List Ev

namespace HState

/-- Source method `clear`: remove any rendered features from the sketch layer. -/
def clear (st : HState) : HState := { st with featureOnLayer := false }

/-- Source method `callback(name, args)`.  It returns early when no
template geometry is set; clears the sketch layer when the drag is ending
(`done` or `cancel`); and, when a callback is registered under `name`,
invokes it — with `[this.dragGeometry.clone()]`, NOT with `args` (the
`args` parameter is accepted and then never used by the implementation).
`this.dragGeometry.clone()` throws a TypeError when no working geometry
has ever been created. -/
def callbackRun (name : CbName) (args : List CbArg) (st : HState) :
    Except JsErr HState :=
  match st.geometry with
  | none => .ok st
  | some _ =>
    let st1 := if name = .done ∨ name = .cancel then st.clear else st
    if name ∈ st1.registered then
      match st1.dragGeometry with
      | none => .error .typeError
      | some g =>
        .ok { st1 with events := st1.events ++ [.fired name [.geom g.clone]] }
    else .ok st1

/-- Source method `down(evt)`: no-op without a template; otherwise clear
the layer, clone the template into `dragGeometry`, set `origin`, seed
`radius` with `measureWidth()` (bounds recomputed, `|right - left|`),
put the sketch feature on the layer, translate the clone so its bounds'
bottom-left corner lands on the origin, and fire the `create` callback
(the call site passes `[this.origin, this.feature]`, which `callbackRun`
ignores).  A template with no bounds (empty collection) makes
`measureWidth` dereference `null`. -/
def down (p : Point) (st : HState) : Except JsErr HState :=
  match st.geometry with
  | none => .ok st
  | some tmpl =>
    let st1 := st.clear
    let drag := tmpl.clone
    match Shape.bounds drag with
    | none => .error .typeError
    | some b =>
      let radius := |b.right - b.left|
      let drag2 := drag.moveBy (p.x - b.left) (p.y - b.bottom)
      let st2 : HState :=
        { st1 with
            dragGeometry := some drag2
            origin := some p
            radius := some radius
            featureOnLayer := true }
      callbackRun .create [.point p, .featureRef] st2

/-- Source method `move(evt)`: no-op without a template (the guard tests
`this.geometry`, not the session); otherwise rotate `dragGeometry` by the
angle delta about `origin`, then resize it by the radius ratio about
`origin`, then redraw.  Reading `this.origin.y` with `origin` null, or
calling `.rotate` on an absent `dragGeometry`, throws a TypeError in JS;
dividing by an uninitialised `this.radius` would give NaN, modelled as
`nanArith` (unreachable through `down`/`move`/`up`/`cancel`). -/
def move (p : Point) (st : HState) : Except JsErr HState :=
  match st.geometry with
  | none => .ok st
  | some _ =>
    match st.origin with
    | none => .error .typeError
    | some o =>
      let prevAngle := st.angle
      let newAngle := calculateAngle p o
      match st.dragGeometry with
      | none => .error .typeError
      | some g =>
        let g1 := g.rotateBy (newAngle - prevAngle) o
        match st.radius with
        | none => .error .nanArith
        | some prevRadius =>
          let newRadius := p.distanceTo o
          let g2 := g1.resizeBy (newRadius / prevRadius) o
          .ok { st with
                  angle := newAngle
                  radius := some newRadius
                  dragGeometry := some g2
                  events := st.events ++ [.render g2] }

/-- Source method `finalize()`: reset `origin` and `angle` only. -/
def finalize (st : HState) : HState := { st with origin := none, angle := 0 }

/-- Source method `up(evt)`: just `finalize`. -/
def up (st : HState) : HState := st.finalize

/-- Source method `out(evt)`: just `finalize`. -/
def out (st : HState) : HState := st.finalize

/-- Source method `cancel()`: fire the `cancel` callback (the source
passes `null` for the args, which `callbackRun` ignores), then finalize. -/
def cancel (st : HState) : Except JsErr HState :=
  (st.callbackRun .cancel []).map finalize

/-- Source method `setGeometry(geometry)`. -/
def setGeometry (g : Shape) (st : HState) : HState := { st with geometry := some g }

end HState

/-- Source method `measureWidth()`, as a function of the measured
collection: recompute bounds, then `|bounds.right - bounds.left|`
(`none` when the collection is empty and bounds are `null`). -/
def measureWidth (s : Shape) : Option ℝ :=
  (Shape.bounds s).map fun b => |b.right - b.left|

/-- One externally triggerable handler operation. -/
inductive Op
  | down (p : Point)
  | move (p : Point)
  | up
  | out
  | cancel
  | finalize
  | clear
  | callback (name : CbName) (args : List CbArg)

/-- Run one operation against the handler state. -/
def stepOp : Op → HState → Except JsErr HState
  | .down p, st => st.down p
  | .move p, st => st.move p
  | .up, st => .ok st.up
  | .out, st => .ok st.out
  | .cancel, st => st.cancel
  | .finalize, st => .ok st.finalize
  | .clear, st => .ok st.clear
  | .callback n a, st => st.callbackRun n a

/-- The state `down` produces when it succeeds on template `tmpl` whose
bounds are `b` (names the successful result of `HState.down`). -/
def downResult (st : HState) (tmpl : Shape) (b : Bounds) (p : Point) : HState :=
  let drag2 := tmpl.clone.moveBy (p.x - b.left) (p.y - b.bottom)
  let st2 : HState :=
    { st.clear with
        dragGeometry := some drag2
        origin := some p
        radius := some |b.right - b.left|
        featureOnLayer := true }
  if CbName.create ∈ st2.registered then
    { st2 with events := st2.events ++ [.fired .create [.geom drag2.clone]] }
  else st2

/-- The state `move` produces when it succeeds with origin `o`, working
shape `g` and previous radius `R` (names the successful result of
`HState.move`). -/
def moveResult (st : HState) (o : Point) (g : Shape) (R : ℝ) (p : Point) : HState :=
  let newAngle := calculateAngle p o
  let g2 := (g.rotateBy (newAngle - st.angle) o).resizeBy (p.distanceTo o / R) o
  { st with
      angle := newAngle
      radius := some (p.distanceTo o)
      dragGeometry := some g2
      events := st.events ++ [.render g2] }

/-- An affine map on points with the same nonnegative stretch on both
axes; both `Shape.moveBy` and `Shape.resizeBy` are instances of it. -/
def affP (f a c : ℝ) (p : Point) : Point := ⟨a + f * p.x, c + f * p.y⟩

/-- The image of a bounds box under `affP f a c` when `0 ≤ f`. -/
def affB (f a c : ℝ) (b : Bounds) : Bounds :=
  ⟨a + f * b.left, a + f * b.right, c + f * b.bottom, c + f * b.top⟩

/-- Concrete template: a horizontal segment of width 10. -/
def tmpl0 : Shape := [⟨0, 0⟩, ⟨10, 0⟩]

/-- Concrete degenerate template: a vertical segment of width 0. -/
def tmplV : Shape := [⟨0, 0⟩, ⟨0, 10⟩]

/-- Handler state with `tmpl0` set and `create`/`cancel` callbacks
registered, before any drag. -/
def st0 : HState :=
  { geometry := some tmpl0
    dragGeometry := none
    origin := none
    angle := 0
    radius := none
    featureOnLayer := false
    registered := [.create, .cancel]
    events := [] }

/-- The state after `st0.down ⟨0,0⟩`. -/
def st0d : HState :=
  { geometry := some tmpl0
    dragGeometry := some tmpl0
    origin := some ⟨0, 0⟩
    angle := 0
    radius := some 10
    featureOnLayer := true
    registered := [.create, .cancel]
    events := [.fired .create [.geom tmpl0]] }

/-- The state after `st0d.move ⟨0,5⟩`: the first move is at distance 5
from the origin at 90 degrees, so the segment is rotated onto the y-axis
and scaled by 5/10. -/
def stM5 : HState :=
  { geometry := some tmpl0
    dragGeometry := some [⟨0, 0⟩, ⟨0, -5⟩]
    origin := some ⟨0, 0⟩
    angle := 90
    radius := some 5
    featureOnLayer := true
    registered := [.create, .cancel]
    events := [.fired .create [.geom tmpl0], .render [⟨0, 0⟩, ⟨0, -5⟩]] }

/-- Handler state with the zero-width template `tmplV` set and no
callbacks registered. -/
def st3 : HState :=
  { geometry := some tmplV
    dragGeometry := none
    origin := none
    angle := 0
    radius := none
    featureOnLayer := false
    registered := []
    events := [] }

/-- The state after `st3.down ⟨0,0⟩`: the session was created and the
radius was seeded with the template's width, 0. -/
def st3d : HState :=
  { geometry := some tmplV
    dragGeometry := some tmplV
    origin := some ⟨0, 0⟩
    angle := 0
    radius := some 0
    featureOnLayer := true
    registered := []
    events := [] }

/-- The state after `st3d.move ⟨5,0⟩`: the ratio 5/0 is applied as the
scale factor (total real division gives 0; IEEE doubles give Infinity). -/
def st3m : HState :=
  { geometry := some tmplV
    dragGeometry := some [⟨0, 0⟩, ⟨0, 0⟩]
    origin := some ⟨0, 0⟩
    angle := 0
    radius := some 5
    featureOnLayer := true
    registered := []
    events := [.render [⟨0, 0⟩, ⟨0, 0⟩]] }

/-- Handler state with no template geometry set. -/
def stN : HState :=
  { geometry := none
    dragGeometry := none
    origin := none
    angle := 0
    radius := none
    featureOnLayer := false
    registered := [.create, .cancel]
    events := [] }

/-- The state after a session on `st0` ended with `up`: `origin` and
`angle` are reset but `dragGeometry` and `radius` survive. -/
def st0dUp : HState :=
  { geometry := some tmpl0
    dragGeometry := some tmpl0
    origin := none
    angle := 0
    radius := some 10
    featureOnLayer := true
    registered := [.create, .cancel]
    events := [.fired .create [.geom tmpl0]] }

end

/-! ## Basic evaluation lemmas for the handler's methods -/

theorem callbackRun_fields (n : CbName) (a : List CbArg) (st st' : HState)
    (h : st.callbackRun n a = .ok st') :
    st'.geometry = st.geometry ∧ st'.dragGeometry = st.dragGeometry ∧
    st'.origin = st.origin ∧ st'.angle = st.angle ∧
    st'.radius = st.radius ∧ st'.registered = st.registered := by
  unfold HState.callbackRun at h
  cases hgeo : st.geometry with
  | none =>
    rw [hgeo] at h
    dsimp only at h
    injection h with h
    subst h
    exact ⟨hgeo, rfl, rfl, rfl, rfl, rfl⟩
  | some tmpl =>
    rw [hgeo] at h
    dsimp only at h
    by_cases hc : (n = CbName.done ∨ n = CbName.cancel) <;>
      simp only [hc, if_true, if_false, HState.clear] at h <;>
      by_cases hm : n ∈ st.registered <;>
      simp only [hm, if_true, if_false] at h
    · cases hd : st.dragGeometry <;> rw [hd] at h <;> dsimp only at h
      · exact Except.noConfusion h
      · injection h with h
        subst h
        exact ⟨hgeo, rfl, rfl, rfl, rfl, rfl⟩
    · injection h with h
      subst h
      exact ⟨hgeo, rfl, rfl, rfl, rfl, rfl⟩
    · cases hd : st.dragGeometry <;> rw [hd] at h <;> dsimp only at h
      · exact Except.noConfusion h
      · injection h with h
        subst h
        exact ⟨hgeo, rfl, rfl, rfl, rfl, rfl⟩
    · injection h with h
      subst h
      exact ⟨hgeo, rfl, rfl, rfl, rfl, rfl⟩

theorem down_spec (st : HState) (tmpl : Shape) (b : Bounds) (p : Point)
    (hg : st.geometry = some tmpl) (hb : tmpl.bounds = some b) :
    st.down p = .ok (downResult st tmpl b p) := by
  by_cases hm : CbName.create ∈ st.registered <;>
    simp [HState.down, HState.callbackRun, HState.clear, downResult, Shape.clone, hg, hb, hm]

theorem move_spec (st : HState) (tmpl g : Shape) (o : Point) (R : ℝ) (p : Point)
    (hg : st.geometry = some tmpl) (ho : st.origin = some o)
    (hd : st.dragGeometry = some g) (hr : st.radius = some R) :
    st.move p = .ok (moveResult st o g R p) := by
  unfold HState.move moveResult
  rw [hg, ho, hd, hr]

/-! ## Geometry lemmas -/

theorem affine_min (f a u v : ℝ) (hf : 0 ≤ f) :
    a + f * min u v = min (a + f * u) (a + f * v) := by
  rcases le_total u v with h | h
  · rw [min_eq_left h, min_eq_left]
    exact add_le_add_left (mul_le_mul_of_nonneg_left h hf) a
  · rw [min_eq_right h, min_eq_right]
    exact add_le_add_left (mul_le_mul_of_nonneg_left h hf) a

theorem affine_max (f a u v : ℝ) (hf : 0 ≤ f) :
    a + f * max u v = max (a + f * u) (a + f * v) := by
  rcases le_total u v with h | h
  · rw [max_eq_right h, max_eq_right]
    exact add_le_add_left (mul_le_mul_of_nonneg_left h hf) a
  · rw [max_eq_left h, max_eq_left]
    exact add_le_add_left (mul_le_mul_of_nonneg_left h hf) a

theorem extend_affine (f a c : ℝ) (hf : 0 ≤ f) (b : Bounds) (q : Point) :
    (affB f a c b).extend (affP f a c q) = affB f a c (b.extend q) := by
  unfold affB affP Bounds.extend
  simp only [Bounds.mk.injEq]
  exact ⟨(affine_min f a _ _ hf).symm, (affine_max f a _ _ hf).symm,
    (affine_min f c _ _ hf).symm, (affine_max f c _ _ hf).symm⟩

theorem foldl_extend_affine (f a c : ℝ) (hf : 0 ≤ f) :
    ∀ (l : List Point) (b : Bounds),
      (l.map (affP f a c)).foldl Bounds.extend (affB f a c b) =
        affB f a c (l.foldl Bounds.extend b) := by
  intro l
  induction l with
  | nil => intro b; rfl
  | cons q l ih =>
    intro b
    simp only [List.map_cons, List.foldl_cons]
    rw [extend_affine f a c hf b q, ih]

theorem bounds_map_affine (f a c : ℝ) (hf : 0 ≤ f) (s : Shape) (b : Bounds)
    (hb : s.bounds = some b) :
    Shape.bounds (s.map (affP f a c)) = some (affB f a c b) := by
  cases s with
  | nil => exact absurd hb (by simp [Shape.bounds])
  | cons p ps =>
    simp only [Shape.bounds, Option.some.injEq] at hb
    simp only [List.map_cons, Shape.bounds, Option.some.injEq]
    have hinit : (⟨(affP f a c p).x, (affP f a c p).x, (affP f a c p).y, (affP f a c p).y⟩ : Bounds)
        = affB f a c ⟨p.x, p.x, p.y, p.y⟩ := rfl
    rw [hinit, foldl_extend_affine f a c hf, hb]

theorem moveBy_eq_map (s : Shape) (dx dy : ℝ) :
    s.moveBy dx dy = s.map (affP 1 dx dy) := by
  have h : (fun p : Point => (⟨p.x + dx, p.y + dy⟩ : Point)) = affP 1 dx dy := by
    funext p
    simp only [affP, Point.mk.injEq]
    constructor <;> ring
  rw [Shape.moveBy, h]

theorem resizeBy_eq_map (s : Shape) (f : ℝ) (piv : Point) :
    s.resizeBy f piv = s.map (affP f (piv.x - f * piv.x) (piv.y - f * piv.y)) := by
  have h : (fun p : Point => (⟨piv.x + f * (p.x - piv.x), piv.y + f * (p.y - piv.y)⟩ : Point))
      = affP f (piv.x - f * piv.x) (piv.y - f * piv.y) := by
    funext p
    simp only [affP, Point.mk.injEq]
    constructor <;> ring
  rw [Shape.resizeBy, h]

theorem bounds_moveBy (s : Shape) (dx dy : ℝ) (b : Bounds) (hb : s.bounds = some b) :
    Shape.bounds (s.moveBy dx dy) = some (affB 1 dx dy b) := by
  rw [moveBy_eq_map]
  exact bounds_map_affine 1 dx dy zero_le_one s b hb

theorem bounds_resizeBy (s : Shape) (f : ℝ) (piv : Point) (b : Bounds)
    (hf : 0 ≤ f) (hb : s.bounds = some b) :
    Shape.bounds (s.resizeBy f piv) =
      some (affB f (piv.x - f * piv.x) (piv.y - f * piv.y) b) := by
  rw [resizeBy_eq_map]
  exact bounds_map_affine f _ _ hf s b hb

theorem bounds_left_le_right (s : Shape) (b : Bounds) (hb : s.bounds = some b) :
    b.left ≤ b.right := by
  cases s with
  | nil => exact absurd hb (by simp [Shape.bounds])
  | cons p ps =>
    simp only [Shape.bounds, Option.some.injEq] at hb
    subst hb
    have key : ∀ (l : List Point) (b0 : Bounds), b0.left ≤ b0.right →
        (l.foldl Bounds.extend b0).left ≤ (l.foldl Bounds.extend b0).right := by
      intro l
      induction l with
      | nil => intro b0 h0; exact h0
      | cons q l ih =>
        intro b0 h0
        refine ih _ ?_
        exact le_trans (min_le_left _ _) (le_trans h0 (le_max_left _ _))
    exact key ps ⟨p.x, p.x, p.y, p.y⟩ le_rfl

theorem rotPoint_zero (piv p : Point) : rotPoint 0 piv p = p := by
  cases p with
  | mk px py =>
    unfold rotPoint cosd sind
    simp only [zero_mul, zero_div, Real.cos_zero, Real.sin_zero, Point.mk.injEq]
    constructor <;> ring

theorem rotateBy_zero (s : Shape) (piv : Point) : s.rotateBy 0 piv = s := by
  unfold Shape.rotateBy
  have h : rotPoint 0 piv = id := funext (rotPoint_zero piv)
  rw [h, List.map_id]

theorem cosd_ninety : cosd 90 = 0 := by
  unfold cosd
  rw [show (90 : ℝ) * Real.pi / 180 = Real.pi / 2 by ring, Real.cos_pi_div_two]

theorem sind_ninety : sind 90 = 1 := by
  unfold sind
  rw [show (90 : ℝ) * Real.pi / 180 = Real.pi / 2 by ring, Real.sin_pi_div_two]

theorem atan2_zero_of_nonneg (x : ℝ) (hx : 0 ≤ x) : atan2 0 x = 0 := by
  unfold atan2
  rcases lt_or_eq_of_le hx with h | h
  · rw [if_pos h, zero_div, Real.arctan_zero]
  · rw [if_neg (by rw [← h]; exact lt_irrefl 0), if_neg (by rw [← h]; exact lt_irrefl 0),
      if_neg (lt_irrefl 0), if_neg (lt_irrefl 0)]

theorem atan2_up (y : ℝ) (hy : 0 < y) : atan2 y 0 = Real.pi / 2 := by
  unfold atan2
  rw [if_neg (lt_irrefl 0), if_neg (lt_irrefl 0), if_pos hy]

theorem calculateAngle_along_x (o : Point) (D : ℝ) (hD : 0 ≤ D) :
    calculateAngle ⟨o.x + D, o.y⟩ o = 0 := by
  unfold calculateAngle
  simp only [sub_self, add_sub_cancel_left]
  rw [atan2_zero_of_nonneg D hD, zero_mul]

theorem calculateAngle_up (o : Point) (D : ℝ) (hD : 0 < D) :
    calculateAngle ⟨o.x, o.y + D⟩ o = 90 := by
  unfold calculateAngle
  simp only [sub_self, add_sub_cancel_left]
  rw [atan2_up D hD]
  field_simp
  ring

theorem distanceTo_along_x (o : Point) (D : ℝ) (hD : 0 ≤ D) :
    Point.distanceTo ⟨o.x + D, o.y⟩ o = D := by
  unfold Point.distanceTo
  simp only [sub_self, add_sub_cancel_left]
  rw [show D ^ 2 + 0 ^ 2 = D ^ 2 by ring, Real.sqrt_sq hD]

theorem distanceTo_up (o : Point) (D : ℝ) (hD : 0 ≤ D) :
    Point.distanceTo ⟨o.x, o.y + D⟩ o = D := by
  unfold Point.distanceTo
  simp only [sub_self, add_sub_cancel_left]
  rw [show (0 : ℝ) ^ 2 + D ^ 2 = D ^ 2 by ring, Real.sqrt_sq hD]

/-! ## Concrete evaluations -/

theorem bounds_tmpl0 : Shape.bounds tmpl0 = some ⟨0, 10, 0, 0⟩ := by
  unfold tmpl0 Shape.bounds
  simp only [List.foldl_cons, List.foldl_nil, Bounds.extend, min_def, max_def]
  norm_num

theorem bounds_tmplV : Shape.bounds tmplV = some ⟨0, 0, 0, 10⟩ := by
  unfold tmplV Shape.bounds
  simp only [List.foldl_cons, List.foldl_nil, Bounds.extend, min_def, max_def]
  norm_num

theorem down_st0 : st0.down ⟨0, 0⟩ = .ok st0d := by
  rw [down_spec st0 tmpl0 ⟨0, 10, 0, 0⟩ ⟨0, 0⟩ rfl bounds_tmpl0]
  congr 1
  simp only [downResult, st0, st0d, tmpl0, HState.clear, Shape.clone, Shape.moveBy,
    List.map_cons, List.map_nil]
  norm_num

theorem down_st3 : st3.down ⟨0, 0⟩ = .ok st3d := by
  rw [down_spec st3 tmplV ⟨0, 0, 0, 10⟩ ⟨0, 0⟩ rfl bounds_tmplV]
  congr 1
  simp only [downResult, st3, st3d, tmplV, HState.clear, Shape.clone, Shape.moveBy,
    List.map_cons, List.map_nil]
  norm_num

theorem calcAngle_05 : calculateAngle ⟨0, 5⟩ ⟨0, 0⟩ = 90 := by
  unfold calculateAngle
  dsimp only
  simp only [sub_zero, sub_self]
  rw [atan2_up 5 (by norm_num)]
  field_simp
  ring

theorem dist_05 : Point.distanceTo ⟨0, 5⟩ ⟨0, 0⟩ = 5 := by
  unfold Point.distanceTo
  norm_num
  rw [show (25 : ℝ) = 5 ^ 2 by norm_num, Real.sqrt_sq (by norm_num : (0 : ℝ) ≤ 5)]

theorem calcAngle_50 : calculateAngle ⟨5, 0⟩ ⟨0, 0⟩ = 0 := by
  unfold calculateAngle
  dsimp only
  simp only [sub_zero, sub_self]
  rw [atan2_zero_of_nonneg 5 (by norm_num), zero_mul]

theorem dist_50 : Point.distanceTo ⟨5, 0⟩ ⟨0, 0⟩ = 5 := by
  unfold Point.distanceTo
  norm_num
  rw [show (25 : ℝ) = 5 ^ 2 by norm_num, Real.sqrt_sq (by norm_num : (0 : ℝ) ≤ 5)]

theorem move_st0d : st0d.move ⟨0, 5⟩ = .ok stM5 := by
  rw [move_spec st0d tmpl0 tmpl0 ⟨0, 0⟩ 10 ⟨0, 5⟩ rfl rfl rfl rfl]
  congr 1
  unfold moveResult
  simp only [calcAngle_05, dist_05]
  rw [show st0d.angle = 0 from rfl, sub_zero]
  have hrot : Shape.rotateBy tmpl0 90 ⟨0, 0⟩ = [⟨0, 0⟩, ⟨0, -10⟩] := by
    unfold tmpl0 Shape.rotateBy rotPoint
    simp only [List.map_cons, List.map_nil, cosd_ninety, sind_ninety]
    norm_num
  rw [hrot]
  have hres : Shape.resizeBy [⟨0, 0⟩, ⟨0, -10⟩] (5 / 10) ⟨0, 0⟩ = [⟨0, 0⟩, ⟨0, -5⟩] := by
    unfold Shape.resizeBy
    simp only [List.map_cons, List.map_nil]
    norm_num
  rw [hres]
  rfl

theorem move_st3d : st3d.move ⟨5, 0⟩ = .ok st3m := by
  rw [move_spec st3d tmplV tmplV ⟨0, 0⟩ 0 ⟨5, 0⟩ rfl rfl rfl rfl]
  congr 1
  unfold moveResult
  simp only [calcAngle_50, dist_50]
  rw [show st3d.angle = 0 from rfl, sub_self, rotateBy_zero, div_zero]
  have hres : Shape.resizeBy tmplV 0 ⟨0, 0⟩ = [⟨0, 0⟩, ⟨0, 0⟩] := by
    unfold tmplV Shape.resizeBy
    simp only [List.map_cons, List.map_nil]
    norm_num
  rw [hres]
  rfl

/-- Successful evaluation of the `cancel` path when a working shape
exists: the callback dispatcher clears the layer and appends the fired
event with a clone of the working shape, and `cancel` then finalizes. -/
theorem cancel_spec (st : HState) (tmpl g : Shape)
    (hg : st.geometry = some tmpl) (hd : st.dragGeometry = some g)
    (hreg : CbName.cancel ∈ st.registered) :
    st.callbackRun .cancel [] =
      .ok { st with
        featureOnLayer := false
        events := st.events ++ [.fired .cancel [.geom g.clone]] } ∧
    st.cancel =
      .ok { st with
        featureOnLayer := false
        events := st.events ++ [.fired .cancel [.geom g.clone]]
        origin := none
        angle := 0 } := by
  have h1 : st.callbackRun .cancel [] =
      .ok { st with
        featureOnLayer := false
        events := st.events ++ [.fired .cancel [.geom g.clone]] } := by
    unfold HState.callbackRun
    rw [hg]
    dsimp only [HState.clear]
    rw [if_pos (Or.inr rfl), if_pos hreg, hd]
    dsimp only
    simp [hg]
  refine ⟨h1, ?_⟩
  unfold HState.cancel
  rw [h1]
  rfl

/-- Whenever a working shape exists, or no template is set, or the
`cancel` callback is not registered, the `cancel` dispatcher cannot hit
the `undefined.clone()` dereference and returns a state. -/
theorem cancel_ok_cases (st : HState)
    (h : st.geometry = none ∨ st.dragGeometry.isSome = true ∨
      CbName.cancel ∉ st.registered) :
    ∃ mid, st.callbackRun .cancel [] = .ok mid := by
  cases hgeo : st.geometry with
  | none =>
    refine ⟨st, ?_⟩
    unfold HState.callbackRun
    rw [hgeo]
  | some tmpl =>
    by_cases hm : CbName.cancel ∈ st.registered
    · rcases h with h | h | h
      · rw [hgeo] at h; exact Option.noConfusion h
      · obtain ⟨g, hgd⟩ := Option.isSome_iff_exists.mp h
        exact ⟨_, (cancel_spec st tmpl g hgeo hgd hm).1⟩
      · exact absurd hm h
    · refine ⟨st.clear, ?_⟩
      unfold HState.callbackRun
      rw [hgeo]
      dsimp only [HState.clear]
      rw [if_pos (Or.inr rfl), if_neg hm]

/-! ## Claims -/

/-- Claim C1: for every move during an active session with origin `o`,
current angle `A` and current radius `R`, the handler computes
`newAngle = atan2 (p.y - o.y) (p.x - o.x)` in degrees and rotates the
working shape by `newAngle - A` about `o`, storing `newAngle`; it then
computes `newRadius` as the Euclidean distance from the pointer to `o`
and scales the already-rotated shape by `newRadius / R` about the same
`o`, storing `newRadius`; rotation comes first, scale second, both about
the fixed origin, and the re-render of the result is triggered
afterwards. -/
theorem C1_move_rotates_then_scales (st : HState) (tmpl g : Shape) (o : Point)
    (A R : ℝ) (p : Point)
    (hg : st.geometry = some tmpl) (ho : st.origin = some o)
    (hd : st.dragGeometry = some g) (hr : st.radius = some R)
    (ha : st.angle = A) :
    st.move p = .ok (moveResult st o g R p) ∧
    (moveResult st o g R p).dragGeometry =
      some ((g.rotateBy (calculateAngle p o - A) o).resizeBy
        (p.distanceTo o / R) o) ∧
    (moveResult st o g R p).angle = calculateAngle p o ∧
    (moveResult st o g R p).radius = some (p.distanceTo o) ∧
    (moveResult st o g R p).events =
      st.events ++ [.render ((g.rotateBy (calculateAngle p o - A) o).resizeBy
        (p.distanceTo o / R) o)] := by
  subst ha
  exact ⟨move_spec st tmpl g o R p hg ho hd hr, rfl, rfl, rfl, rfl⟩

theorem C1_witness :
    st0d.geometry = some tmpl0 ∧ st0d.origin = some (⟨0, 0⟩ : Point) ∧
    st0d.dragGeometry = some tmpl0 ∧ st0d.radius = some 10 ∧ st0d.angle = 0 ∧
    st0d.move ⟨0, 5⟩ = .ok (moveResult st0d ⟨0, 0⟩ tmpl0 10 ⟨0, 5⟩) ∧
    (moveResult st0d ⟨0, 0⟩ tmpl0 10 ⟨0, 5⟩).dragGeometry =
      some ((tmpl0.rotateBy (calculateAngle ⟨0, 5⟩ ⟨0, 0⟩ - 0) ⟨0, 0⟩).resizeBy
        (Point.distanceTo ⟨0, 5⟩ ⟨0, 0⟩ / 10) ⟨0, 0⟩) :=
  have h := C1_move_rotates_then_scales st0d tmpl0 tmpl0 ⟨0, 0⟩ 0 10 ⟨0, 5⟩
    rfl rfl rfl rfl rfl
  ⟨rfl, rfl, rfl, rfl, rfl, h.1, h.2.1⟩

/-- Claim C4 (evidence for a code bug): the callback dispatcher's own
doc comment says it triggers the named callback "with the given
arguments", and the `down` call site passes `[origin, feature]`, but the
implementation ignores its `args` parameter for every callback name (two
calls with different argument lists are indistinguishable) and always
delivers the single argument `dragGeometry.clone()`: at this concrete
start the `create` callback receives a clone of the working geometry,
not the origin point and the feature wrapper. -/
theorem C4_create_payload_is_clone :
    st0.down ⟨0, 0⟩ = .ok st0d ∧
    st0d.events = [.fired .create [.geom (Shape.clone tmpl0)]] ∧
    (∀ (n : CbName) (a a' : List CbArg) (st : HState),
      st.callbackRun n a = st.callbackRun n a') ∧
    ([CbArg.geom (Shape.clone tmpl0)] : List CbArg) ≠
      [.point ⟨0, 0⟩, .featureRef] :=
  ⟨down_st0, rfl, fun _ _ _ _ => rfl, by simp⟩

/-- Claim C5 (amended): `down` with no template set is a silent no-op,
and `move` with no template set is a silent no-op; but `move` guards only
on the template, so with a template set and no active session it is not a
no-op (see the counterexample). -/
theorem C5_no_template_noop (st : HState) (p q : Point)
    (h : st.geometry = none) :
    st.down p = .ok st ∧ st.move q = .ok st := by
  constructor
  · unfold HState.down
    rw [h]
  · unfold HState.move
    rw [h]

theorem C5_witness :
    stN.geometry = none ∧ stN.down ⟨2, 3⟩ = .ok stN ∧ stN.move ⟨4, 5⟩ = .ok stN :=
  have h := C5_no_template_noop stN ⟨2, 3⟩ ⟨4, 5⟩ rfl
  ⟨rfl, h.1, h.2⟩

/-- Claim C5 counterexample: with a template set but no active session
(`origin` absent), `move` passes its only guard and dereferences the
absent origin — a TypeError in JS, not a silent no-op. -/
theorem C5_counterexample :
    st3.geometry = some tmplV ∧ st3.origin = none ∧
    st3.move ⟨1, 1⟩ = .error .typeError :=
  ⟨rfl, rfl, rfl⟩

/-- Claim C7: on a successful `down` the radius is seeded with the
absolute horizontal width `|bounds.right - bounds.left|` of the freshly
cloned working shape (bounds computed anew on the clone), and the clone
is translated so that the bottom-left corner of its recomputed bounds
coincides with the pointer-down origin. -/
theorem C7_down_seeds_width_and_translates (st : HState) (tmpl : Shape)
    (b : Bounds) (p : Point)
    (hg : st.geometry = some tmpl) (hb : Shape.bounds tmpl.clone = some b) :
    st.down p = .ok (downResult st tmpl b p) ∧
    (downResult st tmpl b p).radius = some |b.right - b.left| ∧
    (downResult st tmpl b p).origin = some p ∧
    (downResult st tmpl b p).dragGeometry =
      some (tmpl.clone.moveBy (p.x - b.left) (p.y - b.bottom)) ∧
    Shape.bounds (tmpl.clone.moveBy (p.x - b.left) (p.y - b.bottom)) =
      some (affB 1 (p.x - b.left) (p.y - b.bottom) b) ∧
    (affB 1 (p.x - b.left) (p.y - b.bottom) b).left = p.x ∧
    (affB 1 (p.x - b.left) (p.y - b.bottom) b).bottom = p.y := by
  refine ⟨down_spec st tmpl b p hg hb, ?_, ?_, ?_,
    bounds_moveBy tmpl.clone (p.x - b.left) (p.y - b.bottom) b hb, ?_, ?_⟩
  · by_cases hm : CbName.create ∈ st.registered <;>
      simp [downResult, HState.clear, hm]
  · by_cases hm : CbName.create ∈ st.registered <;>
      simp [downResult, HState.clear, hm]
  · by_cases hm : CbName.create ∈ st.registered <;>
      simp [downResult, HState.clear, hm]
  · unfold affB
    dsimp only
    ring
  · unfold affB
    dsimp only
    ring

theorem C7_witness :
    st0.geometry = some tmpl0 ∧ Shape.bounds (Shape.clone tmpl0) = some ⟨0, 10, 0, 0⟩ ∧
    st0.down ⟨0, 0⟩ = .ok (downResult st0 tmpl0 ⟨0, 10, 0, 0⟩ ⟨0, 0⟩) ∧
    (downResult st0 tmpl0 ⟨0, 10, 0, 0⟩ ⟨0, 0⟩).radius =
      some |(⟨0, 10, 0, 0⟩ : Bounds).right - (⟨0, 10, 0, 0⟩ : Bounds).left| ∧
    (downResult st0 tmpl0 ⟨0, 10, 0, 0⟩ ⟨0, 0⟩).origin = some (⟨0, 0⟩ : Point) :=
  have h := C7_down_seeds_width_and_translates st0 tmpl0 ⟨0, 10, 0, 0⟩ ⟨0, 0⟩
    rfl bounds_tmpl0
  ⟨rfl, bounds_tmpl0, h.1, h.2.1, h.2.2.1⟩

/-- The source's `move` never changes the stored template. -/
theorem move_preserves_geometry (p : Point) (st st' : HState)
    (h : st.move p = .ok st') : st'.geometry = st.geometry := by
  unfold HState.move at h
  split at h
  · injection h with h
    subst h
    rfl
  · split at h
    · exact Except.noConfusion h
    · split at h
      · exact Except.noConfusion h
      · split at h
        · exact Except.noConfusion h
        · injection h with h
          subst h
          rfl

/-- The width of an affinely transported bounds box. -/
theorem affB_width (f a c : ℝ) (b : Bounds) :
    (affB f a c b).right - (affB f a c b).left = f * (b.right - b.left) := by
  unfold affB
  dsimp only
  ring

/-- Claim C6: no handler operation mutates the stored template: every
successful operation preserves the `geometry` field, and a successful
`down` installs as working shape a translate of a fresh clone of the
template — so each new session starts from the template's native
orientation and size, whatever earlier sessions did. -/
theorem C6_template_never_mutated (op : Op) (st st' : HState)
    (h : stepOp op st = .ok st') :
    st'.geometry = st.geometry ∧
    (∀ (q : Point) (tmpl : Shape) (b : Bounds), op = .down q →
      st.geometry = some tmpl → Shape.bounds tmpl.clone = some b →
      st'.dragGeometry = some (tmpl.clone.moveBy (q.x - b.left) (q.y - b.bottom))) := by
  cases op with
  | down p =>
    replace h : st.down p = .ok st' := h
    cases hg : st.geometry with
    | none =>
      unfold HState.down at h
      rw [hg] at h
      dsimp only at h
      injection h with h
      subst h
      refine ⟨hg, ?_⟩
      intro q tmpl b hop hsome hb
      exact Option.noConfusion hsome
    | some t =>
      cases hbt : Shape.bounds t.clone with
      | none =>
        unfold HState.down at h
        rw [hg] at h
        dsimp only at h
        rw [hbt] at h
        dsimp only at h
        exact Except.noConfusion h
      | some b0 =>
        rw [down_spec st t b0 p hg hbt] at h
        injection h with h
        subst h
        constructor
        · by_cases hm : CbName.create ∈ st.registered <;>
            simp [downResult, HState.clear, hm, hg]
        · intro q tmpl b hop hsome hb
          injection hop with hpq
          subst hpq
          injection hsome with ht
          subst ht
          rw [hbt] at hb
          injection hb with hbb
          subst hbb
          by_cases hm : CbName.create ∈ st.registered <;>
            simp [downResult, HState.clear, hm]
  | move p =>
    replace h : st.move p = .ok st' := h
    exact ⟨move_preserves_geometry p st st' h,
      fun q tmpl b hop _ _ => Op.noConfusion hop⟩
  | up =>
    replace h : Except.ok st.up = .ok st' := h
    injection h with h
    subst h
    exact ⟨rfl, fun q tmpl b hop _ _ => Op.noConfusion hop⟩
  | out =>
    replace h : Except.ok st.out = .ok st' := h
    injection h with h
    subst h
    exact ⟨rfl, fun q tmpl b hop _ _ => Op.noConfusion hop⟩
  | cancel =>
    replace h : st.cancel = .ok st' := h
    unfold HState.cancel at h
    cases hmid : st.callbackRun .cancel [] with
    | error e =>
      rw [hmid] at h
      exact Except.noConfusion h
    | ok mid =>
      rw [hmid] at h
      dsimp only [Except.map] at h
      injection h with h
      subst h
      exact ⟨(callbackRun_fields _ _ _ _ hmid).1,
        fun q tmpl b hop _ _ => Op.noConfusion hop⟩
  | finalize =>
    replace h : Except.ok st.finalize = .ok st' := h
    injection h with h
    subst h
    exact ⟨rfl, fun q tmpl b hop _ _ => Op.noConfusion hop⟩
  | clear =>
    replace h : Except.ok st.clear = .ok st' := h
    injection h with h
    subst h
    exact ⟨rfl, fun q tmpl b hop _ _ => Op.noConfusion hop⟩
  | callback n a =>
    replace h : st.callbackRun n a = .ok st' := h
    exact ⟨(callbackRun_fields _ _ _ _ h).1,
      fun q tmpl b hop _ _ => Op.noConfusion hop⟩

theorem C6_witness :
    stepOp (Op.down ⟨0, 0⟩) st0 = .ok st0d ∧
    st0d.geometry = st0.geometry ∧
    st0d.dragGeometry = some (tmpl0.clone.moveBy
      ((⟨0, 0⟩ : Point).x - (⟨0, 10, 0, 0⟩ : Bounds).left)
      ((⟨0, 0⟩ : Point).y - (⟨0, 10, 0, 0⟩ : Bounds).bottom)) :=
  have hstep : stepOp (Op.down ⟨0, 0⟩) st0 = .ok st0d := down_st0
  have h := C6_template_never_mutated (Op.down ⟨0, 0⟩) st0 st0d hstep
  ⟨hstep, h.1, h.2 ⟨0, 0⟩ tmpl0 ⟨0, 10, 0, 0⟩ rfl rfl bounds_tmpl0⟩

/-- Claim C8: `cancel` during a session (template and working shape
present, `cancel` callback registered) emits a `cancel` event delivering
a clone of the working shape — the implementation passes
`dragGeometry.clone()`, never the live working shape — then finalizes
identically to `end`: the result is `up` of the post-callback state,
with `origin` absent and `angle` reset to 0. -/
theorem C8_cancel_delivers_clone_then_finalizes (st : HState) (tmpl g : Shape)
    (hg : st.geometry = some tmpl) (hd : st.dragGeometry = some g)
    (hreg : CbName.cancel ∈ st.registered) :
    st.callbackRun .cancel [] =
      .ok { st with
        featureOnLayer := false
        events := st.events ++ [.fired .cancel [.geom g.clone]] } ∧
    st.cancel =
      .ok { st with
        featureOnLayer := false
        events := st.events ++ [.fired .cancel [.geom g.clone]]
        origin := none
        angle := 0 } ∧
    (∀ stMid, st.callbackRun .cancel [] = .ok stMid → st.cancel = .ok stMid.up) ∧
    (∀ stEnd, st.cancel = .ok stEnd → stEnd.origin = none ∧ stEnd.angle = 0) := by
  obtain ⟨h1, h2⟩ := cancel_spec st tmpl g hg hd hreg
  refine ⟨h1, h2, ?_, ?_⟩
  · intro stMid hm
    rw [h1] at hm
    injection hm with hm
    subst hm
    exact h2
  · intro stEnd he
    rw [h2] at he
    injection he with he
    subst he
    exact ⟨rfl, rfl⟩

theorem C8_witness :
    st0d.geometry = some tmpl0 ∧ st0d.dragGeometry = some tmpl0 ∧
    CbName.cancel ∈ st0d.registered ∧
    st0d.cancel = .ok { st0d with
      featureOnLayer := false
      events := st0d.events ++ [.fired .cancel [.geom (Shape.clone tmpl0)]]
      origin := none
      angle := 0 } :=
  have hreg : CbName.cancel ∈ st0d.registered :=
    List.Mem.tail _ (List.Mem.head _)
  have h := C8_cancel_delivers_clone_then_finalizes st0d tmpl0 tmpl0 rfl rfl hreg
  ⟨rfl, rfl, hreg, h.2.1⟩

/-- Claim C9 counterexample: with a template set, a `cancel` callback
registered, and no session ever started (so no working shape exists),
`cancel` evaluates `undefined.clone()` — a TypeError in JS — so "cancel
then end, when no session is active, produces no error" fails here. -/
theorem C9_counterexample :
    st0.origin = none ∧ st0.dragGeometry = none ∧
    CbName.cancel ∈ st0.registered ∧
    st0.cancel = .error .typeError :=
  ⟨rfl, rfl, List.Mem.tail _ (List.Mem.head _), rfl⟩

/-- Claim C9 (amended): `end` (`up`) finalizes by resetting only `origin`
and `angle`, emits no event, and finalization is idempotent — calling
`end` twice is always safe; `cancel` then `end` with no active session is
also error-free and leaves the finalized Idle state provided no template
is set, or a working shape (possibly from a previous session) exists, or
no `cancel` callback is registered; the remaining corner errors (see the
counterexample). -/
theorem C9_finalize_idempotent (st : HState)
    (h : st.geometry = none ∨ st.dragGeometry.isSome = true ∨
      CbName.cancel ∉ st.registered) :
    (st.up = st.finalize ∧ st.finalize.origin = none ∧ st.finalize.angle = 0 ∧
      st.finalize.events = st.events ∧ st.finalize.finalize = st.finalize ∧
      st.up.up = st.up) ∧
    (∀ e, st.cancel ≠ .error e) ∧
    (∀ st₁, st.cancel = .ok st₁ →
      st₁.origin = none ∧ st₁.angle = 0 ∧ st₁.up = st₁) := by
  obtain ⟨mid, hmid⟩ := cancel_ok_cases st h
  have hcl : st.cancel = .ok mid.finalize := by
    unfold HState.cancel
    rw [hmid]
    rfl
  refine ⟨⟨rfl, rfl, rfl, rfl, rfl, rfl⟩, ?_, ?_⟩
  · intro e he
    rw [hcl] at he
    exact Except.noConfusion he
  · intro st₁ h₁
    rw [hcl] at h₁
    injection h₁ with h₁
    subst h₁
    exact ⟨rfl, rfl, rfl⟩

theorem C9_witness :
    (stN.geometry = none ∨ stN.dragGeometry.isSome = true ∨
      CbName.cancel ∉ stN.registered) ∧
    stN.up = stN.finalize ∧ (∀ e, stN.cancel ≠ .error e) :=
  have h := C9_finalize_idempotent stN (Or.inl rfl)
  ⟨Or.inl rfl, h.1.1, h.2.1⟩

/-- Claim C10: finalization resets only `origin` and `angle`; the stored
radius and working shape are retained, so when a session has ended via
`end` and the template is still set (with a `cancel` callback
registered), a later `cancel` still fires the callback and delivers a
clone of the previous session's final working shape — it is not a no-op.
-/
theorem C10_cancel_after_end_delivers (st : HState) (tmpl g : Shape)
    (hg : st.geometry = some tmpl) (hd : st.dragGeometry = some g)
    (hreg : CbName.cancel ∈ st.registered) (hidle : st.origin = none) :
    st.finalize.radius = st.radius ∧
    st.finalize.dragGeometry = st.dragGeometry ∧
    st.cancel = .ok { st with
      featureOnLayer := false
      events := st.events ++ [.fired .cancel [.geom g.clone]]
      origin := none
      angle := 0 } ∧
    st.events ++ [.fired .cancel [.geom g.clone]] ≠ st.events := by
  refine ⟨rfl, rfl, (cancel_spec st tmpl g hg hd hreg).2, ?_⟩
  intro hbad
  have hlen := congrArg List.length hbad
  simp only [List.length_append, List.length_cons, List.length_nil] at hlen
  omega

theorem C10_witness :
    st0dUp.origin = none ∧ st0dUp.dragGeometry = some tmpl0 ∧
    st0dUp.finalize.radius = st0dUp.radius ∧
    st0dUp.cancel = .ok { st0dUp with
      featureOnLayer := false
      events := st0dUp.events ++ [.fired .cancel [.geom (Shape.clone tmpl0)]]
      origin := none
      angle := 0 } :=
  have h := C10_cancel_after_end_delivers st0dUp tmpl0 tmpl0 rfl rfl
    (List.Mem.tail _ (List.Mem.head _)) rfl
  ⟨rfl, rfl, h.1, h.2.2.1⟩

/-- Claim C2 (amended): after `start` seeds the radius with the
template's native width W > 0, the first `move` at distance D from the
origin applies the scale factor D / W; when that first move lies on the
positive x-axis from the origin (so the frame's rotation delta is 0), the
working shape's horizontal width becomes exactly D.  In general the same
frame also rotates the shape first, so the width afterwards need not be D
(see the counterexample). -/
theorem C2_first_move_scale_factor (st : HState) (tmpl : Shape) (b : Bounds)
    (p0 : Point) (D : ℝ)
    (hg : st.geometry = some tmpl) (hb : Shape.bounds tmpl.clone = some b)
    (hang : st.angle = 0) (hW : b.left < b.right) (hD : 0 ≤ D) :
    st.down p0 = .ok (downResult st tmpl b p0) ∧
    (downResult st tmpl b p0).radius = some (b.right - b.left) ∧
    (downResult st tmpl b p0).move ⟨p0.x + D, p0.y⟩ =
      .ok (moveResult (downResult st tmpl b p0) p0
        (tmpl.clone.moveBy (p0.x - b.left) (p0.y - b.bottom))
        (b.right - b.left) ⟨p0.x + D, p0.y⟩) ∧
    Point.distanceTo ⟨p0.x + D, p0.y⟩ p0 = D ∧
    Option.bind (moveResult (downResult st tmpl b p0) p0
        (tmpl.clone.moveBy (p0.x - b.left) (p0.y - b.bottom))
        (b.right - b.left) ⟨p0.x + D, p0.y⟩).dragGeometry measureWidth =
      some D := by
  have hWpos : (0 : ℝ) < b.right - b.left := sub_pos.mpr hW
  have hWne : b.right - b.left ≠ 0 := ne_of_gt hWpos
  have habs : |b.right - b.left| = b.right - b.left :=
    abs_of_nonneg (le_of_lt hWpos)
  have hgeo' : (downResult st tmpl b p0).geometry = some tmpl := by
    by_cases hm : CbName.create ∈ st.registered <;>
      simp [downResult, HState.clear, hm, hg]
  have horig' : (downResult st tmpl b p0).origin = some p0 := by
    by_cases hm : CbName.create ∈ st.registered <;>
      simp [downResult, HState.clear, hm]
  have hdrag' : (downResult st tmpl b p0).dragGeometry =
      some (tmpl.clone.moveBy (p0.x - b.left) (p0.y - b.bottom)) := by
    by_cases hm : CbName.create ∈ st.registered <;>
      simp [downResult, HState.clear, hm]
  have hrad0 : (downResult st tmpl b p0).radius = some |b.right - b.left| := by
    by_cases hm : CbName.create ∈ st.registered <;>
      simp [downResult, HState.clear, hm]
  have hrad' : (downResult st tmpl b p0).radius = some (b.right - b.left) := by
    rw [hrad0, habs]
  have hang' : (downResult st tmpl b p0).angle = 0 := by
    by_cases hm : CbName.create ∈ st.registered <;>
      simp [downResult, HState.clear, hm, hang]
  have hdist : Point.distanceTo ⟨p0.x + D, p0.y⟩ p0 = D := distanceTo_along_x p0 D hD
  have hcalc : calculateAngle ⟨p0.x + D, p0.y⟩ p0 = 0 := calculateAngle_along_x p0 D hD
  refine ⟨down_spec st tmpl b p0 hg hb, hrad',
    move_spec (downResult st tmpl b p0) tmpl _ p0 (b.right - b.left) _
      hgeo' horig' hdrag' hrad', hdist, ?_⟩
  have hg2 : (moveResult (downResult st tmpl b p0) p0
      (tmpl.clone.moveBy (p0.x - b.left) (p0.y - b.bottom))
      (b.right - b.left) ⟨p0.x + D, p0.y⟩).dragGeometry =
      some ((tmpl.clone.moveBy (p0.x - b.left) (p0.y - b.bottom)).resizeBy
        (D / (b.right - b.left)) p0) := by
    unfold moveResult
    dsimp only
    rw [hcalc, hang', sub_self, rotateBy_zero, hdist]
  rw [hg2]
  have hbm : Shape.bounds (tmpl.clone.moveBy (p0.x - b.left) (p0.y - b.bottom)) =
      some (affB 1 (p0.x - b.left) (p0.y - b.bottom) b) :=
    bounds_moveBy tmpl.clone _ _ b hb
  have hfnn : (0 : ℝ) ≤ D / (b.right - b.left) := div_nonneg hD (le_of_lt hWpos)
  have hbr := bounds_resizeBy (tmpl.clone.moveBy (p0.x - b.left) (p0.y - b.bottom))
    (D / (b.right - b.left)) p0 _ hfnn hbm
  show measureWidth ((tmpl.clone.moveBy (p0.x - b.left) (p0.y - b.bottom)).resizeBy
    (D / (b.right - b.left)) p0) = some D
  unfold measureWidth
  rw [hbr]
  dsimp only [Option.map]
  congr 1
  rw [affB_width, affB_width, one_mul, div_mul_cancel₀ D hWne]
  exact abs_of_nonneg hD

theorem C2_witness :
    st0.geometry = some tmpl0 ∧ st0.angle = 0 ∧ ((0 : ℝ) ≤ 5) ∧
    ((⟨0, 10, 0, 0⟩ : Bounds).left < (⟨0, 10, 0, 0⟩ : Bounds).right) ∧
    (downResult st0 tmpl0 ⟨0, 10, 0, 0⟩ ⟨0, 0⟩).radius =
      some ((⟨0, 10, 0, 0⟩ : Bounds).right - (⟨0, 10, 0, 0⟩ : Bounds).left) ∧
    Option.bind (moveResult (downResult st0 tmpl0 ⟨0, 10, 0, 0⟩ ⟨0, 0⟩) ⟨0, 0⟩
        (tmpl0.clone.moveBy ((⟨0, 0⟩ : Point).x - (⟨0, 10, 0, 0⟩ : Bounds).left)
          ((⟨0, 0⟩ : Point).y - (⟨0, 10, 0, 0⟩ : Bounds).bottom))
        ((⟨0, 10, 0, 0⟩ : Bounds).right - (⟨0, 10, 0, 0⟩ : Bounds).left)
        ⟨(⟨0, 0⟩ : Point).x + 5, (⟨0, 0⟩ : Point).y⟩).dragGeometry measureWidth =
      some 5 :=
  have h := C2_first_move_scale_factor st0 tmpl0 ⟨0, 10, 0, 0⟩ ⟨0, 0⟩ 5
    rfl bounds_tmpl0 rfl (by norm_num) (by norm_num)
  ⟨rfl, rfl, by norm_num, by norm_num, h.2.1, h.2.2.2.2⟩

/-- Claim C2 counterexample: template `tmpl0` has native width W = 10 >
0; after `start` at the origin, the first `move` at distance D = 5 lies
at 90 degrees, so the frame first rotates the horizontal segment onto the
y-axis and then scales by 5/10: the resulting horizontal width is 0, not
D, refuting "the shape's horizontal width equals exactly D". -/
theorem C2_counterexample :
    st0.down ⟨0, 0⟩ = .ok st0d ∧ st0d.radius = some 10 ∧
    Point.distanceTo ⟨0, 5⟩ ⟨0, 0⟩ = 5 ∧
    st0d.move ⟨0, 5⟩ = .ok stM5 ∧
    Option.bind stM5.dragGeometry measureWidth = some 0 ∧ (0 : ℝ) ≠ 5 := by
  refine ⟨down_st0, rfl, dist_05, move_st0d, ?_, by norm_num⟩
  show measureWidth [⟨0, 0⟩, ⟨0, -5⟩] = some 0
  unfold measureWidth Shape.bounds
  simp only [List.foldl_cons, List.foldl_nil, Bounds.extend, min_def, max_def]
  norm_num

/-- Claim C3 (amended): nothing guards the degenerate zero-width
template: `down` accepts it, creating a session whose radius is seeded
with 0 (no rejection), and a subsequent `move` divides the new radius by
the stored 0 and applies that unguarded ratio as the scale factor (total
real division makes it 0 in this model; IEEE doubles make it
Infinity/NaN) — the factor is not replaced by 1 and no branch rejects.
-/
theorem C3_zero_width_unguarded (st : HState) (tmpl : Shape) (b : Bounds)
    (q : Point)
    (hg : st.geometry = some tmpl) (hb : Shape.bounds tmpl.clone = some b)
    (hzw : b.right = b.left) :
    (st.down q = .ok (downResult st tmpl b q) ∧
      (downResult st tmpl b q).origin = some q ∧
      (downResult st tmpl b q).radius = some 0) ∧
    (∀ (st₁ : HState) (g : Shape) (o p : Point),
      st₁.geometry = some tmpl → st₁.origin = some o →
      st₁.dragGeometry = some g → st₁.radius = some 0 →
      st₁.move p = .ok (moveResult st₁ o g 0 p) ∧
      (moveResult st₁ o g 0 p).dragGeometry =
        some ((g.rotateBy (calculateAngle p o - st₁.angle) o).resizeBy
          (p.distanceTo o / 0) o)) := by
  constructor
  · refine ⟨down_spec st tmpl b q hg hb, ?_, ?_⟩
    · by_cases hm : CbName.create ∈ st.registered <;>
        simp [downResult, HState.clear, hm]
    · have habs0 : |b.right - b.left| = 0 := by rw [hzw, sub_self, abs_zero]
      by_cases hm : CbName.create ∈ st.registered <;>
        simp [downResult, HState.clear, hm, habs0]
  · intro st₁ g o p h₁ h₂ h₃ h₄
    exact ⟨move_spec st₁ tmpl g o 0 p h₁ h₂ h₃ h₄, rfl⟩

theorem C3_witness :
    st3.geometry = some tmplV ∧
    (⟨0, 0, 0, 10⟩ : Bounds).right = (⟨0, 0, 0, 10⟩ : Bounds).left ∧
    st3.down ⟨0, 0⟩ = .ok (downResult st3 tmplV ⟨0, 0, 0, 10⟩ ⟨0, 0⟩) ∧
    (downResult st3 tmplV ⟨0, 0, 0, 10⟩ ⟨0, 0⟩).radius = some 0 ∧
    st3d.move ⟨5, 0⟩ = .ok (moveResult st3d ⟨0, 0⟩ tmplV 0 ⟨5, 0⟩) :=
  have h := C3_zero_width_unguarded st3 tmplV ⟨0, 0, 0, 10⟩ ⟨0, 0⟩
    rfl bounds_tmplV rfl
  ⟨rfl, rfl, h.1.1, h.1.2.2,
    (h.2 st3d tmplV ⟨0, 0⟩ ⟨5, 0⟩ rfl rfl rfl rfl).1⟩

/-- Claim C3 counterexample: the zero-width template `tmplV` is accepted
at `start` (a session is created with radius 0 — no rejection), and the
first `move` at distance 5 is not a no-op scale: the applied factor is
5/0, which collapses the shape (to the pivot in the total-division model;
to Infinity/NaN coordinates in JS) instead of leaving it unchanged. -/
theorem C3_counterexample :
    st3.down ⟨0, 0⟩ = .ok st3d ∧ st3d.origin = some (⟨0, 0⟩ : Point) ∧
    st3d.radius = some 0 ∧
    st3d.move ⟨5, 0⟩ = .ok st3m ∧
    st3m.dragGeometry ≠ st3d.dragGeometry :=
  ⟨down_st3, rfl, rfl, move_st3d, by norm_num [st3m, st3d, tmplV]⟩

end OLGeom
